import Mathlib

/-!
# FFmpegVideoDecoder: decode-unit submission and frame buffering

A shallow embedding of `src/streaming/ffmpeg/FFmpegVideoDecoder.cpp`.

* The member variables of the class become the fields of the structure
  `FFmpegVideoDecoder`; every member function becomes a function on that
  structure.
* Pointers are `Option`s (`none` is the null pointer).  A path on which the C++
  code dereferences a null pointer, indexes outside a block or divides by zero
  has no defined result and is `none` in the model.
* libavcodec, the allocator and the mutex are external.  What they answer is
  supplied by the caller of the model (`Engine`, `SetupEnv`, the `mutex_lock`
  argument); the calls that matter for the properties below are appended to
  the ghost field `calls`, in program order.
* `m_packet` is written by `decode` and read only by the `avcodec_send_packet`
  call that follows immediately, and `m_mutex` is only locked and unlocked, so
  neither is a field: the packet's bytes and size are arguments of the logged
  call and the result of the lock is an argument of `submit_decode_unit`.
-/

namespace Moonlight

/-- One byte of compressed video. -/
abbrev Byte := Fin 256

/-- The address of an `AVFrame`, as returned by `av_frame_alloc`. -/
abbrev Ptr := Nat

/-- The codec descriptor `avcodec_find_decoder_by_name` returns. -/
structure AVCodec where
  name : String
deriving DecidableEq, Repr

/-- The macro `DECODER_BUFFER_SIZE`, `92 * 1024` (line 17). -/
def DECODER_BUFFER_SIZE : Nat := 92 * 1024

/-- The success status `DR_OK` of Limelight.h. -/
def DR_OK : Int := 0

/-- The constant `VIDEO_FORMAT_H264` of Limelight.h. -/
def VIDEO_FORMAT_H264 : Int := 0x0001

/-- The constant `VIDEO_FORMAT_H265` of Limelight.h. -/
def VIDEO_FORMAT_H265 : Int := 0x0100

/-- The value of `AVERROR(EAGAIN)`: the engine has no picture ready. -/
def AVERROR_EAGAIN : Int := -11

/-- The external calls the properties talk about, with their arguments and the
value they returned. -/
inductive Call where
  | LOG (msg : String)
  | avcodec_close
  | av_free
  | av_frame_free (frame : Ptr)
  | free_frames
  | free_buffer
  | avcodec_send_packet (data : List Byte) (size : Int) (err : Int)
  | avcodec_receive_frame (frame : Ptr) (err : Int)
deriving DecidableEq, Repr

/-- A block of bytes returned by `malloc`: its size and its contents. -/
structure Block where
  size : Nat
  bytes : Nat → Byte

/-- The decoding engine (libavcodec) as the adapter drives it: a session of type
`σ`, `avcodec_send_packet` on the packet's bytes and `avcodec_receive_frame`,
each returning its status and the session afterwards. -/
structure Engine (σ : Type) where
  avcodec_send_packet : σ → List Byte → Int × σ
  avcodec_receive_frame : σ → Int × σ

/-- What the library and the allocator answer during one call of `setup`. -/
structure SetupEnv (σ : Type) where
  /-- The codec of that name, or null. -/
  avcodec_find_decoder_by_name : String → Option AVCodec
  /-- A new session for the codec, or null. -/
  avcodec_alloc_context3 : AVCodec → Option σ
  /-- Opens the session configured with `width` and `height`: status and session. -/
  avcodec_open2 : σ → Int → Int → Int × σ
  /-- The block for the frame array: null, or its indeterminate initial contents. -/
  malloc_frames : Option (Nat → Option Ptr)
  /-- The result of the `i`-th call of `av_frame_alloc`. -/
  av_frame_alloc : Nat → Option Ptr
  /-- The constant `AV_INPUT_BUFFER_PADDING_SIZE` of the libavcodec in use. -/
  AV_INPUT_BUFFER_PADDING_SIZE : Nat
  /-- The block for the staging buffer: null, or its indeterminate initial contents. -/
  malloc_buffer : Option (Nat → Byte)

/-- The structure `DECODE_UNIT` of Limelight.h, as far as the code reads it: the
list of fragments (each `LENTRY` is its bytes, `length` their number) and the
declared total length. -/
structure DECODE_UNIT where
  bufferList : List (List Byte)
  fullLength : Int

/-- The member variables of the class. -/
structure FFmpegVideoDecoder (σ : Type) where
  m_decoder : Option AVCodec
  m_decoder_context : Option σ
  m_frames : Option (List (Option Ptr))
  m_frames_count : Int
  m_current_frame : Int
  m_next_frame : Int
  m_ffmpeg_buffer : Option Block
  m_frame : Option Ptr
  /-- Ghost: the external calls made so far. -/
  calls : List Call

/-- Modelled from the spec: the member initialisers of the class declaration
(FFmpegVideoDecoder.hpp is not among the sources).  The pipeline is created
Uninitialized, `current()` is Empty before the first successful decode and the
first picture goes to slot 0: every pointer is null and both slot indices are
0.  `m_frames_count` is assigned by `setup` before anything reads it. -/
def fresh {σ : Type} : FFmpegVideoDecoder σ :=
  { m_decoder := none, m_decoder_context := none, m_frames := none,
    m_frames_count := 0, m_current_frame := 0, m_next_frame := 0,
    m_ffmpeg_buffer := none, m_frame := none, calls := [] }

/-- Appends one call to the log. -/
def FFmpegVideoDecoder.logged {σ : Type} (s : FFmpegVideoDecoder σ) (c : Call) :
    FFmpegVideoDecoder σ :=
  { s with calls := s.calls ++ [c] }

/-- `memcpy(dst + offset, src, src.length)` inside the block. -/
def memcpy (dst : Block) (offset : Nat) (src : List Byte) : Block :=
  { dst with
    bytes := fun i =>
      if offset ≤ i ∧ i < offset + src.length then src.getD (i - offset) 0
      else dst.bytes i }

/-- The first `n` bytes of a block. -/
def Block.prefix_bytes (b : Block) (n : Nat) : List Byte :=
  (List.range n).map b.bytes

/-- `FFmpegVideoDecoder::cleanup` (lines 115-136).  The loop over the frame
array stops at the end of the block. -/
def cleanup {σ : Type} (s : FFmpegVideoDecoder σ) : FFmpegVideoDecoder σ :=
  let s1 :=
    match s.m_decoder_context with
    | some _ =>
      { s with m_decoder_context := none,
               calls := s.calls ++ [Call.avcodec_close, Call.av_free] }
    | none => s
  let s2 :=
    match s1.m_frames with
    | some frames =>
      { s1 with m_frames := none,
                calls := s1.calls
                  ++ ((frames.take s1.m_frames_count.toNat).filterMap id).map Call.av_frame_free
                  ++ [Call.free_frames] }
    | none => s1
  match s2.m_ffmpeg_buffer with
  | some _ => { s2 with m_ffmpeg_buffer := none, calls := s2.calls ++ [Call.free_buffer] }
  | none => s2

/-- The loop of lines 97-103: `m_frames[i] = av_frame_alloc()` for `i` from `i`
up to `m_frames_count`; `false` when an allocation returned null (the loop was
left by `return -1`). -/
def alloc_frames {σ : Type} (env : SetupEnv σ) :
    Nat → Nat → List (Option Ptr) → List (Option Ptr) × Bool
  | 0, _, frames => (frames, true)
  | todo + 1, i, frames =>
    match env.av_frame_alloc i with
    | none => (frames.set i none, false)
    | some p => alloc_frames env todo (i + 1) (frames.set i (some p))

/-- `FFmpegVideoDecoder::setup` (lines 34-113): the status returned and the
adapter afterwards.  `redraw_rate`, `context` and `dr_flags` are not read. -/
def setup {σ : Type} (env : SetupEnv σ) (video_format width height : Int)
    (s : FFmpegVideoDecoder σ) : Int × FFmpegVideoDecoder σ :=
  let s :=
    if video_format = VIDEO_FORMAT_H264 then
      { s with m_decoder := env.avcodec_find_decoder_by_name "h264" }
    else if video_format = VIDEO_FORMAT_H265 then
      { s with m_decoder := env.avcodec_find_decoder_by_name "hevc" }
    else s
  match s.m_decoder with
  | none => (-1, s.logged (Call.LOG "Couldn't find decoder\n"))
  | some decoder =>
    match env.avcodec_alloc_context3 decoder with
    | none =>
      (-1, { s with m_decoder_context := none }.logged (Call.LOG "Couldn't allocate context\n"))
    | some ctx =>
      let opened := env.avcodec_open2 ctx width height
      let s := { s with m_decoder_context := some opened.2 }
      if opened.1 < 0 then (opened.1, s.logged (Call.LOG "Couldn't open codec\n"))
      else
        let s := { s with m_frames_count := 2 }
        match env.malloc_frames with
        | none => (-1, { s with m_frames := none }.logged (Call.LOG "Couldn't allocate frames\n"))
        | some garbage =>
          let allocated := alloc_frames env 2 0 ((List.range 2).map garbage)
          let s := { s with m_frames := some allocated.1 }
          if allocated.2 = false then (-1, s.logged (Call.LOG "Couldn't allocate frame\n"))
          else
            match env.malloc_buffer with
            | none =>
              (-1, cleanup ({ s with m_ffmpeg_buffer := none }.logged (Call.LOG "Not enough memory\n")))
            | some contents =>
              let block : Block :=
                ⟨DECODER_BUFFER_SIZE + env.AV_INPUT_BUFFER_PADDING_SIZE, contents⟩
              (DR_OK, { s with m_ffmpeg_buffer := some block })

/-- The loop of lines 142-146: every fragment is copied behind the previous one;
the buffer afterwards and the accumulated `length`.  No result when a copy
leaves the block or the buffer is null. -/
def copy_entries : List (List Byte) → Option Block → Nat → Option (Option Block × Nat)
  | [], buffer, length => some (buffer, length)
  | entry :: next, buffer, length =>
    match buffer with
    | none => none
    | some b =>
      if length + entry.length ≤ b.size then
        copy_entries next (some (memcpy b length entry)) (length + entry.length)
      else none

/-- `FFmpegVideoDecoder::decode` (lines 163-175): sends the first `inlen` bytes of
`indata` to the engine.  No result without a session. -/
def decode {σ : Type} (eng : Engine σ) (indata : Option Block) (inlen : Nat)
    (s : FFmpegVideoDecoder σ) : Option (Int × FFmpegVideoDecoder σ) :=
  match s.m_decoder_context with
  | none => none
  | some ctx =>
    let data := match indata with
      | some b => b.prefix_bytes inlen
      | none => []
    let sent := eng.avcodec_send_packet ctx data
    let s : FFmpegVideoDecoder σ :=
      { s with m_decoder_context := some sent.2 }.logged
        (Call.avcodec_send_packet data inlen sent.1)
    if sent.1 < 0 then some (sent.1, s.logged (Call.LOG "Decode failed\n"))
    else some (0, s)

/-- `FFmpegVideoDecoder::get_frame` (lines 177-191): the pointer returned and the
adapter afterwards.  No result without a session or a frame array, when
`m_next_frame` is outside the array or its entry is null, or when
`m_frames_count` is 0 at the remainder. -/
def get_frame {σ : Type} (eng : Engine σ) (native_frame : Bool)
    (s : FFmpegVideoDecoder σ) : Option (Option Ptr × FFmpegVideoDecoder σ) :=
  match s.m_decoder_context, s.m_frames with
  | some ctx, some frames =>
    if 0 ≤ s.m_next_frame then
      match frames.get? s.m_next_frame.toNat with
      | some (some target) =>
        let received := eng.avcodec_receive_frame ctx
        let s : FFmpegVideoDecoder σ :=
          { s with m_decoder_context := some received.2 }.logged
            (Call.avcodec_receive_frame target received.1)
        if received.1 = 0 then
          if s.m_frames_count = 0 then none
          else
            let s : FFmpegVideoDecoder σ := { s with m_current_frame := s.m_next_frame }
            let s : FFmpegVideoDecoder σ := { s with m_next_frame := Int.tmod (s.m_current_frame + 1) s.m_frames_count }
            if native_frame then
              if 0 ≤ s.m_current_frame then
                match frames.get? s.m_current_frame.toNat with
                | some p => some (p, s)
                | none => none
              else none
            else some (none, s)
        else if received.1 ≠ AVERROR_EAGAIN then
          some (none, s.logged (Call.LOG "Receive failed\n"))
        else some (none, s)
      | _ => none
    else none
  | _, _ => none

/-- `FFmpegVideoDecoder::submit_decode_unit` (lines 138-157): the status returned
and the adapter afterwards; `mutex_lock` is what `pthread_mutex_lock` returns. -/
def submit_decode_unit {σ : Type} (eng : Engine σ) (mutex_lock : Int)
    (decode_unit : DECODE_UNIT) (s : FFmpegVideoDecoder σ) :
    Option (Int × FFmpegVideoDecoder σ) :=
  if decode_unit.fullLength < DECODER_BUFFER_SIZE then
    match copy_entries decode_unit.bufferList s.m_ffmpeg_buffer 0 with
    | none => none
    | some (buffer, length) =>
      match decode eng buffer length { s with m_ffmpeg_buffer := buffer } with
      | none => none
      | some (_, s) =>
        if mutex_lock = 0 then
          match get_frame eng true s with
          | none => none
          | some (picture, s) => some (DR_OK, { s with m_frame := picture })
        else some (DR_OK, s)
  else some (DR_OK, s)

/-- `FFmpegVideoDecoder::frame` (lines 193-195). -/
def frame {σ : Type} (s : FFmpegVideoDecoder σ) : Option Ptr :=
  s.m_frame

/-- The operations a caller performs on the adapter. -/
inductive Op (σ : Type) where
  | setup (env : SetupEnv σ) (video_format width height : Int)
  | cleanup
  | submit_decode_unit (mutex_lock : Int) (decode_unit : DECODE_UNIT)

/-- One operation; the status of `setup` is dropped, the adapter it leaves is kept. -/
def Op.apply {σ : Type} (eng : Engine σ) :
    Op σ → FFmpegVideoDecoder σ → Option (FFmpegVideoDecoder σ)
  | Op.setup env video_format width height, s =>
    some (Moonlight.setup env video_format width height s).2
  | Op.cleanup, s => some (Moonlight.cleanup s)
  | Op.submit_decode_unit mutex_lock decode_unit, s =>
    (Moonlight.submit_decode_unit eng mutex_lock decode_unit s).map Prod.snd

/-- A sequence of operations, first to last. -/
def run {σ : Type} (eng : Engine σ) :
    List (Op σ) → FFmpegVideoDecoder σ → Option (FFmpegVideoDecoder σ)
  | [], s => some s
  | op :: ops, s =>
    match op.apply eng s with
    | none => none
    | some s1 => run eng ops s1

/-- A sequence of `submit_decode_unit` calls, each with the result of its lock. -/
def submit_all {σ : Type} (eng : Engine σ) :
    List (Int × DECODE_UNIT) → FFmpegVideoDecoder σ → Option (FFmpegVideoDecoder σ)
  | [], s => some s
  | (mutex_lock, decode_unit) :: rest, s =>
    match submit_decode_unit eng mutex_lock decode_unit s with
    | none => none
    | some (_, s1) => submit_all eng rest s1

/-- The fragment lengths of a decode unit sum to its declared total length. -/
def DECODE_UNIT.consistent (u : DECODE_UNIT) : Prop :=
  ((u.bufferList.map List.length).sum : Int) = u.fullLength

instance (u : DECODE_UNIT) : Decidable u.consistent :=
  inferInstanceAs (Decidable (((u.bufferList.map List.length).sum : Int) = u.fullLength))

/-- The adapter after a successful `setup`: a session, two allocated frame slots,
`m_next_frame` inside the array and a staging buffer of at least
`DECODER_BUFFER_SIZE` bytes. -/
def Ready {σ : Type} (s : FFmpegVideoDecoder σ) : Prop :=
  s.m_decoder_context.isSome = true ∧
  (∃ p0 p1, s.m_frames = some [some p0, some p1]) ∧
  s.m_frames_count = 2 ∧
  (0 ≤ s.m_next_frame ∧ s.m_next_frame < 2) ∧
  ∃ b, s.m_ffmpeg_buffer = some b ∧ DECODER_BUFFER_SIZE ≤ b.size

/-- The invariant of the slot indices over the whole life of an adapter: both
indices in `[0, 2)`, `m_frames_count` still 0 or already 2, and the next slot
follows the current one whenever a frame is published. -/
def SlotIndices {σ : Type} (s : FFmpegVideoDecoder σ) : Prop :=
  (0 ≤ s.m_current_frame ∧ s.m_current_frame < 2) ∧
  (0 ≤ s.m_next_frame ∧ s.m_next_frame < 2) ∧
  (s.m_frames_count = 0 ∨ s.m_frames_count = 2) ∧
  (s.m_frame ≠ none → s.m_next_frame = (s.m_current_frame + 1) % 2)

/-- The frames the successful `avcodec_receive_frame` calls of a log wrote into,
in order. -/
def written_frames : List Call → List Ptr
  | [] => []
  | Call.avcodec_receive_frame target err :: rest =>
    if err = 0 then target :: written_frames rest else written_frames rest
  | _ :: rest => written_frames rest

/-- The number of `avcodec_receive_frame` calls in a log. -/
def receive_calls : List Call → Nat
  | [] => 0
  | Call.avcodec_receive_frame _ _ :: rest => receive_calls rest + 1
  | _ :: rest => receive_calls rest

/-- The packets handed to `avcodec_send_packet` in a log, in order: bytes and size. -/
def sent_packets : List Call → List (List Byte × Int)
  | [] => []
  | Call.avcodec_send_packet data size _ :: rest => (data, size) :: sent_packets rest
  | _ :: rest => sent_packets rest

/-- The engine has exactly `k` pictures available in session `ctx`: `k`
retrievals in a row succeed and the next one does not. -/
def available {σ : Type} (eng : Engine σ) : Nat → σ → Prop
  | 0, ctx => (eng.avcodec_receive_frame ctx).1 ≠ 0
  | k + 1, ctx =>
    (eng.avcodec_receive_frame ctx).1 = 0 ∧ available eng k (eng.avcodec_receive_frame ctx).2

/-- An engine for the examples: the session is the number of decoded pictures
waiting; a packet adds as many pictures as its first byte says, a retrieval
takes one or reports `AVERROR(EAGAIN)`. -/
def burst_engine : Engine Nat where
  avcodec_send_packet := fun ctx data => (0, ctx + (data.headD 0).val)
  avcodec_receive_frame := fun ctx => if ctx = 0 then (AVERROR_EAGAIN, 0) else (0, ctx - 1)

/-- A library for the examples in which every call of `setup` succeeds; the two
frames are allocated at `base` and `base + 1`. -/
def plain_env (base : Nat) : SetupEnv Nat where
  avcodec_find_decoder_by_name := fun name => some ⟨name⟩
  avcodec_alloc_context3 := fun _ => some 0
  avcodec_open2 := fun ctx _ _ => (0, ctx)
  malloc_frames := some (fun _ => none)
  av_frame_alloc := fun i => some (base + i)
  AV_INPUT_BUFFER_PADDING_SIZE := 64
  malloc_buffer := some (fun _ => 0)

/-- A library for the examples in which `avcodec_open2` fails with
`AVERROR(EINVAL)`. -/
def failing_open_env : SetupEnv Nat :=
  { plain_env 100 with avcodec_open2 := fun ctx _ _ => (-22, ctx) }

/-- The adapter of the examples: fresh, then set up for H.264 at 1280x720 with
frames at 100 and 101. -/
def ready_example : FFmpegVideoDecoder Nat :=
  (setup (plain_env 100) VIDEO_FORMAT_H264 1280 720 fresh).2

/-- A library for the examples in which the staging buffer cannot be allocated. -/
def failing_buffer_env : SetupEnv Nat :=
  { plain_env 100 with malloc_buffer := none }

/-- The operations of a first session of the examples: setup with frames at 100
and 101, one unit that yields a picture, cleanup. -/
def first_session : List (Op Nat) :=
  [Op.setup (plain_env 100) VIDEO_FORMAT_H264 1280 720,
   Op.submit_decode_unit 0 ⟨[[1]], 1⟩,
   Op.cleanup]

/-- A decode unit of one fragment. -/
def single_fragment (data : List Byte) : DECODE_UNIT :=
  { bufferList := [data], fullLength := data.length }

/-! ## The copy loop -/

theorem memcpy_size (b : Block) (n : Nat) (e : List Byte) : (memcpy b n e).size = b.size := rfl

theorem prefix_bytes_memcpy (b : Block) (n : Nat) (e : List Byte) :
    (memcpy b n e).prefix_bytes (n + e.length) = b.prefix_bytes n ++ e := by
  unfold Block.prefix_bytes
  rw [List.range_add, List.map_append]
  congr 1
  · apply List.map_congr_left
    intro i hi
    have hlt : i < n := List.mem_range.mp hi
    have hno : ¬ (n ≤ i ∧ i < n + e.length) := by omega
    simp [memcpy, hno]
  · apply List.ext_getElem
    · simp
    · intro i h1 h2
      have hi : i < e.length := h2
      simp [memcpy, hi, List.getD_eq_getElem?_getD, List.getElem?_eq_getElem hi]

theorem copy_entries_some (entries : List (List Byte)) :
    ∀ (b : Block) (n : Nat), n + (entries.map List.length).sum ≤ b.size →
      ∃ b1, copy_entries entries (some b) n
              = some (some b1, n + (entries.map List.length).sum) ∧
        b1.size = b.size ∧
        b1.prefix_bytes (n + (entries.map List.length).sum)
          = b.prefix_bytes n ++ entries.flatten := by
  induction entries with
  | nil => intro b n _; exact ⟨b, by simp [copy_entries]⟩
  | cons e es ih =>
    intro b n h
    simp only [List.map_cons, List.sum_cons] at h
    have hfit : n + e.length ≤ b.size := by omega
    obtain ⟨b1, h1, h2, h3⟩ := ih (memcpy b n e) (n + e.length)
      (by rw [memcpy_size]; omega)
    refine ⟨b1, ?_, ?_, ?_⟩
    · simp only [copy_entries, hfit, if_true, List.map_cons, List.sum_cons, h1]
      simp [Nat.add_assoc]
    · rw [h2, memcpy_size]
    · simp only [List.map_cons, List.sum_cons, List.flatten_cons]
      rw [← Nat.add_assoc, h3, prefix_bytes_memcpy, List.append_assoc]

theorem prefix_bytes_zero (b : Block) : b.prefix_bytes 0 = [] := rfl

/-! ## The call log -/

theorem written_frames_append (xs ys : List Call) :
    written_frames (xs ++ ys) = written_frames xs ++ written_frames ys := by
  induction xs with
  | nil => rfl
  | cons c cs ih =>
    cases c <;> simp [written_frames, ih]
    split <;> simp

theorem receive_calls_append (xs ys : List Call) :
    receive_calls (xs ++ ys) = receive_calls xs + receive_calls ys := by
  induction xs with
  | nil => simp [receive_calls]
  | cons c cs ih =>
    cases c <;> simp [receive_calls, ih]
    omega

theorem sent_packets_append (xs ys : List Call) :
    sent_packets (xs ++ ys) = sent_packets xs ++ sent_packets ys := by
  induction xs with
  | nil => rfl
  | cons c cs ih => cases c <;> simp [sent_packets, ih]

/-! ## One call of `decode` and of `get_frame` on an adapter that is set up -/

theorem decode_some {σ : Type} (eng : Engine σ) (blk : Block) (n : Nat)
    (s : FFmpegVideoDecoder σ) (c : σ) (hc : s.m_decoder_context = some c) :
    ∃ r s1, decode eng (some blk) n s = some (r, s1) ∧
      s1.m_decoder = s.m_decoder ∧ s1.m_frames = s.m_frames ∧
      s1.m_frames_count = s.m_frames_count ∧ s1.m_current_frame = s.m_current_frame ∧
      s1.m_next_frame = s.m_next_frame ∧ s1.m_ffmpeg_buffer = s.m_ffmpeg_buffer ∧
      s1.m_frame = s.m_frame ∧
      s1.m_decoder_context = some (eng.avcodec_send_packet c (blk.prefix_bytes n)).2 ∧
      sent_packets s1.calls = sent_packets s.calls ++ [(blk.prefix_bytes n, (n : Int))] ∧
      written_frames s1.calls = written_frames s.calls ∧
      receive_calls s1.calls = receive_calls s.calls := by
  by_cases h : (eng.avcodec_send_packet c (blk.prefix_bytes n)).1 < 0 <;>
  · simp only [decode, hc, h, if_true, if_false]
    refine ⟨_, _, rfl, ?_⟩
    simp [FFmpegVideoDecoder.logged, sent_packets_append,
      written_frames_append, receive_calls_append, sent_packets, written_frames, receive_calls]

theorem get_frame_some {σ : Type} (eng : Engine σ) (s : FFmpegVideoDecoder σ)
    (c : σ) (p0 p1 : Ptr)
    (hc : s.m_decoder_context = some c) (hf : s.m_frames = some [some p0, some p1])
    (hcount : s.m_frames_count = 2) (hn : 0 ≤ s.m_next_frame ∧ s.m_next_frame < 2) :
    ∃ r s1, get_frame eng true s = some (r, s1) ∧
      s1.m_decoder = s.m_decoder ∧ s1.m_frames = s.m_frames ∧ s1.m_frames_count = 2 ∧
      s1.m_ffmpeg_buffer = s.m_ffmpeg_buffer ∧ s1.m_frame = s.m_frame ∧
      s1.m_decoder_context = some (eng.avcodec_receive_frame c).2 ∧
      sent_packets s1.calls = sent_packets s.calls ∧
      written_frames s1.calls = written_frames s.calls ++
        (if (eng.avcodec_receive_frame c).1 = 0
          then [if s.m_next_frame = 0 then p0 else p1] else []) ∧
      receive_calls s1.calls = receive_calls s.calls + 1 ∧
      ((eng.avcodec_receive_frame c).1 = 0 →
        r = some (if s.m_next_frame = 0 then p0 else p1) ∧
        s1.m_current_frame = s.m_next_frame ∧
        s1.m_next_frame = (s.m_next_frame + 1) % 2) ∧
      ((eng.avcodec_receive_frame c).1 ≠ 0 →
        r = none ∧ s1.m_current_frame = s.m_current_frame ∧
        s1.m_next_frame = s.m_next_frame) := by
  obtain ⟨dec, ctx, frames, count, cur, next, buf, fr, calls⟩ := s
  simp only at hc hf hcount hn
  subst hc hf hcount
  have hnext : next = 0 ∨ next = 1 := by omega
  by_cases h0 : (eng.avcodec_receive_frame c).1 = 0
  · rcases hnext with rfl | rfl <;>
    · simp [get_frame, h0, FFmpegVideoDecoder.logged]
      refine ⟨_, _, ⟨rfl, rfl⟩, ?_⟩
      simp [h0, sent_packets_append, written_frames_append, receive_calls_append,
        sent_packets, written_frames, receive_calls]
      all_goals rfl
  · by_cases he : (eng.avcodec_receive_frame c).1 = -11 <;>
    rcases hnext with rfl | rfl <;>
    · simp [get_frame, h0, he, FFmpegVideoDecoder.logged, AVERROR_EAGAIN]
      refine ⟨_, _, ⟨rfl, rfl⟩, ?_⟩
      simp [h0, he, AVERROR_EAGAIN, sent_packets_append, written_frames_append, receive_calls_append,
        sent_packets, written_frames, receive_calls]

/-! ## One call of `submit_decode_unit` -/

theorem submit_rejected {σ : Type} (eng : Engine σ) (mutex_lock : Int) (u : DECODE_UNIT)
    (s : FFmpegVideoDecoder σ) (h : ¬ u.fullLength < DECODER_BUFFER_SIZE) :
    submit_decode_unit eng mutex_lock u s = some (DR_OK, s) := by
  unfold submit_decode_unit
  rw [if_neg h]

theorem submit_accepted {σ : Type} (eng : Engine σ) (mutex_lock : Int) (u : DECODE_UNIT)
    (s : FFmpegVideoDecoder σ) (c : σ) (p0 p1 : Ptr) (b : Block)
    (hc : s.m_decoder_context = some c) (hf : s.m_frames = some [some p0, some p1])
    (hcount : s.m_frames_count = 2) (hn : 0 ≤ s.m_next_frame ∧ s.m_next_frame < 2)
    (hb : s.m_ffmpeg_buffer = some b) (hsz : DECODER_BUFFER_SIZE ≤ b.size)
    (hu : u.consistent) (hlt : u.fullLength < DECODER_BUFFER_SIZE) :
    ∃ s1 b1, submit_decode_unit eng mutex_lock u s = some (DR_OK, s1) ∧
      s1.m_decoder = s.m_decoder ∧ s1.m_frames = s.m_frames ∧ s1.m_frames_count = 2 ∧
      s1.m_ffmpeg_buffer = some b1 ∧ b1.size = b.size ∧
      b1.prefix_bytes u.fullLength.toNat = u.bufferList.flatten ∧
      sent_packets s1.calls
        = sent_packets s.calls ++ [(u.bufferList.flatten, u.fullLength)] ∧
      (mutex_lock ≠ 0 →
        s1.m_decoder_context = some (eng.avcodec_send_packet c u.bufferList.flatten).2 ∧
        s1.m_current_frame = s.m_current_frame ∧ s1.m_next_frame = s.m_next_frame ∧
        s1.m_frame = s.m_frame ∧
        written_frames s1.calls = written_frames s.calls ∧
        receive_calls s1.calls = receive_calls s.calls) ∧
      (mutex_lock = 0 →
        s1.m_decoder_context = some (eng.avcodec_receive_frame
          (eng.avcodec_send_packet c u.bufferList.flatten).2).2 ∧
        written_frames s1.calls = written_frames s.calls ++
          (if (eng.avcodec_receive_frame (eng.avcodec_send_packet c u.bufferList.flatten).2).1 = 0
            then [if s.m_next_frame = 0 then p0 else p1] else []) ∧
        receive_calls s1.calls = receive_calls s.calls + 1 ∧
        ((eng.avcodec_receive_frame (eng.avcodec_send_packet c u.bufferList.flatten).2).1 = 0 →
          s1.m_frame = some (if s.m_next_frame = 0 then p0 else p1) ∧
          s1.m_current_frame = s.m_next_frame ∧
          s1.m_next_frame = (s.m_next_frame + 1) % 2) ∧
        ((eng.avcodec_receive_frame (eng.avcodec_send_packet c u.bufferList.flatten).2).1 ≠ 0 →
          s1.m_frame = none ∧ s1.m_current_frame = s.m_current_frame ∧
          s1.m_next_frame = s.m_next_frame)) := by
  have hu1 : ((u.bufferList.map List.length).sum : Int) = u.fullLength := hu
  have hsum : (u.bufferList.map List.length).sum < DECODER_BUFFER_SIZE := by omega
  obtain ⟨b1, h1, h2, h3⟩ := copy_entries_some u.bufferList b 0 (by omega)
  rw [Nat.zero_add] at h1 h3
  rw [prefix_bytes_zero, List.nil_append] at h3
  have htoNat : u.fullLength.toNat = (u.bufferList.map List.length).sum := by omega
  obtain ⟨r, s2, hd, d1, d2, d3, d4, d5, d6, d7, d8, d9, d10, d11⟩ :=
    decode_some eng b1 (u.bufferList.map List.length).sum
      { s with m_ffmpeg_buffer := some b1 } c hc
  rw [h3] at d8 d9
  rw [hu1] at d9
  simp only at d1 d2 d3 d4 d5 d6 d7 d9 d10 d11
  by_cases hl : mutex_lock = 0
  · obtain ⟨r3, s3, hg, g1, g2, g3, g4, g5, g6, g7, g8, g9, g10, g11⟩ :=
      get_frame_some eng s2 (eng.avcodec_send_packet c u.bufferList.flatten).2 p0 p1 d8
        (by rw [d2, hf]) (by rw [d3, hcount]) (by rw [d5]; exact hn)
    refine ⟨{ s3 with m_frame := r3 }, b1, ?_, ?_⟩
    · simp only [submit_decode_unit, hlt, if_true, hb, h1, hd, hl, hg]
    · rw [d5] at g8 g10
      rw [d4, d5] at g11
      simp only [hl, ne_eq, not_true_eq_false, false_implies, true_and, true_implies]
      refine ⟨by rw [g1, d1], by rw [g2, d2], g3, by rw [g4, d6], h2, by rw [htoNat, h3],
        by rw [g7, d9], g6, by rw [g8, d10], by rw [g9, d11], ?_, ?_⟩
      · intro h0
        obtain ⟨e1, e2, e3⟩ := g10 h0
        exact ⟨e1, e2, e3⟩
      · intro h0
        obtain ⟨e1, e2, e3⟩ := g11 h0
        exact ⟨e1, e2, e3⟩
  · refine ⟨s2, b1, ?_, ?_⟩
    · simp only [submit_decode_unit, hlt, if_true, hb, h1, hd, hl, if_false]
    · simp only [hl, ne_eq, not_false_eq_true, false_implies, true_implies, and_true]
      exact ⟨d1, d2, by rw [d3, hcount], d6, h2, by rw [htoNat, h3], d9, d8, d4, d5, d7,
        d10, d11⟩

theorem alloc_frames_two {σ : Type} (env : SetupEnv σ) (g0 g1 : Option Ptr)
    (h : (alloc_frames env 2 0 [g0, g1]).2 = true) :
    ∃ p0 p1, (alloc_frames env 2 0 [g0, g1]).1 = [some p0, some p1] := by
  unfold alloc_frames at h ⊢
  cases h0 : env.av_frame_alloc 0 with
  | none => simp [h0] at h
  | some p0 =>
    simp only [h0] at h ⊢
    unfold alloc_frames at h ⊢
    cases h1 : env.av_frame_alloc 1 with
    | none => simp [h1] at h
    | some p1 =>
      simp only [h1, Nat.zero_add] at h ⊢
      exact ⟨p0, p1, by simp [alloc_frames]⟩

theorem setup_ok {σ : Type} (env : SetupEnv σ) (video_format width height : Int)
    (s : FFmpegVideoDecoder σ) (hok : (setup env video_format width height s).1 = DR_OK) :
    (setup env video_format width height s).2.m_current_frame = s.m_current_frame ∧
    (setup env video_format width height s).2.m_next_frame = s.m_next_frame ∧
    (setup env video_format width height s).2.m_frame = s.m_frame ∧
    (setup env video_format width height s).2.calls = s.calls ∧
    (setup env video_format width height s).2.m_decoder_context.isSome = true ∧
    (∃ p0 p1, (setup env video_format width height s).2.m_frames = some [some p0, some p1]) ∧
    (setup env video_format width height s).2.m_frames_count = 2 ∧
    ∃ b, (setup env video_format width height s).2.m_ffmpeg_buffer = some b ∧
      DECODER_BUFFER_SIZE ≤ b.size := by
  revert hok
  simp only [setup]
  split
  · intro h; simp [DR_OK] at h
  · split
    · intro h; simp [DR_OK] at h
    · split
      · intro h; simp [DR_OK] at h; omega
      · split
        · intro h; simp [DR_OK] at h
        · split
          · intro h; simp [DR_OK] at h
          · split
            · intro h; simp [DR_OK] at h
            · rename_i hall _ _ _
              intro _
              have hmap : ∀ g : Nat → Option Ptr, List.map g (List.range 2) = [g 0, g 1] :=
                fun _ => rfl
              rw [hmap] at hall ⊢
              obtain ⟨p0, p1, hp⟩ := alloc_frames_two env _ _ (by simpa using hall)
              refine ⟨?_, ?_, ?_, ?_, rfl, ⟨p0, p1, ?_⟩, rfl, ⟨_, rfl, ?_⟩⟩
              · simp only; split_ifs <;> rfl
              · simp only; split_ifs <;> rfl
              · simp only; split_ifs <;> rfl
              · simp only; split_ifs <;> rfl
              · simp only [hp]
              · simp only; omega

theorem ready_of_setup {σ : Type} (env : SetupEnv σ) (video_format width height : Int)
    (s : FFmpegVideoDecoder σ) (hok : (setup env video_format width height s).1 = DR_OK)
    (hn : 0 ≤ s.m_next_frame ∧ s.m_next_frame < 2) :
    Ready (setup env video_format width height s).2 := by
  obtain ⟨_, h2, _, _, h5, h6, h7, h8⟩ := setup_ok env video_format width height s hok
  exact ⟨h5, h6, h7, by rw [h2]; exact hn, h8⟩

theorem ready_example_ready : Ready ready_example :=
  ready_of_setup (plain_env 100) VIDEO_FORMAT_H264 1280 720 fresh rfl
    ⟨by decide, by decide⟩

theorem submit_ready {σ : Type} (eng : Engine σ) (mutex_lock : Int) (u : DECODE_UNIT)
    (s : FFmpegVideoDecoder σ) (hr : Ready s) (hu : u.consistent) :
    ∃ s1, submit_decode_unit eng mutex_lock u s = some (DR_OK, s1) ∧ Ready s1 ∧
      s1.m_frames = s.m_frames := by
  by_cases hlt : u.fullLength < DECODER_BUFFER_SIZE
  · obtain ⟨hc, ⟨p0, p1, hf⟩, hcount, hn, b, hb, hsz⟩ := hr
    obtain ⟨c, hc⟩ := Option.isSome_iff_exists.mp hc
    obtain ⟨s1, b1, h1, _, h3, h4, h5, h6, _, _, hno, hyes⟩ :=
      submit_accepted eng mutex_lock u s c p0 p1 b hc hf hcount hn hb hsz hu hlt
    refine ⟨s1, h1, ⟨?_, ⟨p0, p1, by rw [h3, hf]⟩, h4, ?_, b1, h5, by rw [h6]; exact hsz⟩, h3⟩
    · by_cases hl : mutex_lock = 0
      · rw [(hyes hl).1]; rfl
      · rw [(hno hl).1]; rfl
    · by_cases hl : mutex_lock = 0
      · obtain ⟨_, _, _, hs, hf⟩ := hyes hl
        by_cases h0 : (eng.avcodec_receive_frame
            (eng.avcodec_send_packet c u.bufferList.flatten).2).1 = 0
        · rw [(hs h0).2.2]; omega
        · rw [(hf h0).2.2]; exact hn
      · rw [(hno hl).2.2.1]; exact hn
  · exact ⟨s, submit_rejected eng mutex_lock u s hlt, hr, rfl⟩

/-! ## Assembly (C1, C2) -/

/-- C1, as amended: for every decode unit whose fragment lengths sum to its
declared total length and whose total length is strictly below
`DECODER_BUFFER_SIZE`, `submit_decode_unit` on an adapter that is set up returns
`DR_OK`, the staging buffer holds from offset 0 the fragments concatenated in
list order, and exactly one packet is handed to the engine: those bytes, with
the declared total length as its size. -/
theorem assembly_below_capacity {σ : Type} (eng : Engine σ) (mutex_lock : Int)
    (u : DECODE_UNIT) (s : FFmpegVideoDecoder σ) (hr : Ready s) (hu : u.consistent)
    (hlt : u.fullLength < DECODER_BUFFER_SIZE) :
    ∃ s1 b1, submit_decode_unit eng mutex_lock u s = some (DR_OK, s1) ∧
      s1.m_ffmpeg_buffer = some b1 ∧
      b1.prefix_bytes u.fullLength.toNat = u.bufferList.flatten ∧
      sent_packets s1.calls
        = sent_packets s.calls ++ [(u.bufferList.flatten, u.fullLength)] := by
  obtain ⟨hc, ⟨p0, p1, hf⟩, hcount, hn, b, hb, hsz⟩ := hr
  obtain ⟨c, hc⟩ := Option.isSome_iff_exists.mp hc
  obtain ⟨s1, b1, h1, _, _, _, h5, _, h7, h8, _, _⟩ :=
    submit_accepted eng mutex_lock u s c p0 p1 b hc hf hcount hn hb hsz hu hlt
  exact ⟨s1, b1, h1, h5, h7, h8⟩

/-- C1, witness: a unit of two fragments, three bytes in all. -/
theorem assembly_below_capacity_witness :
    ∃ s1 b1, submit_decode_unit burst_engine 0 ⟨[[1, 2], [3]], 3⟩ ready_example
        = some (DR_OK, s1) ∧
      s1.m_ffmpeg_buffer = some b1 ∧
      b1.prefix_bytes (3 : Int).toNat = [1, 2, 3] ∧
      sent_packets s1.calls = sent_packets ready_example.calls ++ [([1, 2, 3], 3)] :=
  assembly_below_capacity burst_engine 0 ⟨[[1, 2], [3]], 3⟩ ready_example
    ready_example_ready (by decide) (by decide)

/-- C1, counterexample: a unit of one fragment of exactly `DECODER_BUFFER_SIZE`
bytes satisfies the hypotheses of the claim (consistent, total length at most
the capacity, adapter set up), yet the guard `fullLength < DECODER_BUFFER_SIZE`
skips it: the adapter is returned as it was and no packet has been handed to the
engine. -/
theorem assembly_at_capacity_skipped :
    Ready ready_example ∧
    (single_fragment (List.replicate DECODER_BUFFER_SIZE 0)).consistent ∧
    (single_fragment (List.replicate DECODER_BUFFER_SIZE 0)).fullLength
      ≤ DECODER_BUFFER_SIZE ∧
    submit_decode_unit burst_engine 0
      (single_fragment (List.replicate DECODER_BUFFER_SIZE 0)) ready_example
      = some (DR_OK, ready_example) ∧
    sent_packets ready_example.calls = [] := by
  refine ⟨ready_example_ready, ?_, ?_, ?_, rfl⟩
  · simp [DECODE_UNIT.consistent, single_fragment]
  · simp [single_fragment]
  · exact submit_rejected _ _ _ _ (by simp [single_fragment])

/-- C2, as amended: for every decode unit whose declared total length exceeds
`DECODER_BUFFER_SIZE`, `submit_decode_unit` returns `DR_OK` (there is no
rejection status) and leaves the adapter exactly as it was, in every state. -/
theorem oversized_unit_dropped {σ : Type} (eng : Engine σ) (mutex_lock : Int)
    (u : DECODE_UNIT) (s : FFmpegVideoDecoder σ)
    (h : (DECODER_BUFFER_SIZE : Int) < u.fullLength) :
    submit_decode_unit eng mutex_lock u s = some (DR_OK, s) :=
  submit_rejected eng mutex_lock u s (by omega)

/-- C2, witness: a unit of capacity + 1 bytes on the adapter of the examples. -/
theorem oversized_unit_dropped_witness :
    (DECODER_BUFFER_SIZE : Int)
      < (single_fragment (List.replicate (DECODER_BUFFER_SIZE + 1) 0)).fullLength ∧
    submit_decode_unit burst_engine 0
      (single_fragment (List.replicate (DECODER_BUFFER_SIZE + 1) 0)) ready_example
      = some (DR_OK, ready_example) :=
  ⟨by simp [single_fragment],
   oversized_unit_dropped burst_engine 0 _ ready_example (by simp [single_fragment])⟩

/-- C2, counterexample: a consistent unit one byte above the capacity, submitted
to an adapter that is set up, gets the status `DR_OK`, not a status different
from it. -/
theorem oversized_unit_status_ok :
    (single_fragment (List.replicate (DECODER_BUFFER_SIZE + 2) 0)).consistent ∧
    (DECODER_BUFFER_SIZE : Int)
      < (single_fragment (List.replicate (DECODER_BUFFER_SIZE + 2) 0)).fullLength ∧
    (submit_decode_unit burst_engine 0
      (single_fragment (List.replicate (DECODER_BUFFER_SIZE + 2) 0)) ready_example).map
        Prod.fst = some DR_OK := by
  refine ⟨?_, ?_, ?_⟩
  · simp [DECODE_UNIT.consistent, single_fragment]
  · simp [single_fragment]
  · rw [submit_rejected _ _ _ _ (by simp [single_fragment])]
    rfl

/-! ## The published frame (C3) -/

/-- C3, as amended: after an accepted submission with the mutex acquired,
`frame()` is decided by that call's own retrieval alone, whatever it was before:
it is non-empty when `avcodec_receive_frame` returned 0 and it is empty when the
engine reported `AVERROR(EAGAIN)` or an error, because the result of `get_frame`
is assigned to `m_frame` unconditionally. -/
theorem frame_follows_last_retrieval {σ : Type} (eng : Engine σ) (u : DECODE_UNIT)
    (s : FFmpegVideoDecoder σ) (c : σ) (hr : Ready s) (hc : s.m_decoder_context = some c)
    (hu : u.consistent) (hlt : u.fullLength < DECODER_BUFFER_SIZE) :
    ∃ s1, submit_decode_unit eng 0 u s = some (DR_OK, s1) ∧
      ((eng.avcodec_receive_frame (eng.avcodec_send_packet c u.bufferList.flatten).2).1 = 0 →
        frame s1 ≠ none) ∧
      ((eng.avcodec_receive_frame (eng.avcodec_send_packet c u.bufferList.flatten).2).1 ≠ 0 →
        frame s1 = none) := by
  obtain ⟨_, ⟨p0, p1, hf⟩, hcount, hn, b, hb, hsz⟩ := hr
  obtain ⟨s1, b1, h1, _, _, _, _, _, _, _, _, hyes⟩ :=
    submit_accepted eng 0 u s c p0 p1 b hc hf hcount hn hb hsz hu hlt
  obtain ⟨_, _, _, hs, hf⟩ := hyes rfl
  refine ⟨s1, h1, ?_, ?_⟩
  · intro h0
    unfold frame
    rw [(hs h0).1]
    exact Option.some_ne_none _
  · intro h0
    exact (hf h0).1

/-- C3, witness: a packet that makes the example engine deliver one picture. -/
theorem frame_follows_last_retrieval_witness :
    ∃ s1, submit_decode_unit burst_engine 0 (single_fragment [1]) ready_example
        = some (DR_OK, s1) ∧
      ((burst_engine.avcodec_receive_frame
          (burst_engine.avcodec_send_packet 0 (single_fragment [1]).bufferList.flatten).2).1 = 0 →
        frame s1 ≠ none) ∧
      ((burst_engine.avcodec_receive_frame
          (burst_engine.avcodec_send_packet 0 (single_fragment [1]).bufferList.flatten).2).1 ≠ 0 →
        frame s1 = none) :=
  frame_follows_last_retrieval burst_engine (single_fragment [1]) ready_example 0
    ready_example_ready rfl (by decide) (by decide)

/-- C3, counterexample: after setup, a first unit retrieves a picture and
`frame()` is the frame at 100; a second accepted unit for which the engine
reports `AVERROR(EAGAIN)` leaves `frame()` empty. -/
theorem frame_reset_when_not_ready :
    (run burst_engine
      [Op.setup (plain_env 100) VIDEO_FORMAT_H264 1280 720,
       Op.submit_decode_unit 0 (single_fragment [1])] fresh).map frame = some (some 100) ∧
    (run burst_engine
      [Op.setup (plain_env 100) VIDEO_FORMAT_H264 1280 720,
       Op.submit_decode_unit 0 (single_fragment [1]),
       Op.submit_decode_unit 0 (single_fragment [0])] fresh).map frame = some none ∧
    (run burst_engine
      [Op.setup (plain_env 100) VIDEO_FORMAT_H264 1280 720,
       Op.submit_decode_unit 0 (single_fragment [1]),
       Op.submit_decode_unit 0 (single_fragment [0])] fresh).map
        (fun s => written_frames s.calls) = some [100] := by
  refine ⟨?_, ?_, ?_⟩ <;> rfl

/-! ## Retrievals per submission (C10) -/

/-- C10, as amended: for every accepted decode unit (mutex acquired) and every
number `k` of pictures the engine has available after the submission,
`submit_decode_unit` calls the retrieval exactly once: for `k ≥ 1` one picture
is retrieved and published and `k - 1` stay available in the engine, for
`k = 0` none is retrieved and `frame()` is empty. -/
theorem single_retrieval_per_unit {σ : Type} (eng : Engine σ) (u : DECODE_UNIT)
    (s : FFmpegVideoDecoder σ) (c : σ) (k : Nat) (hr : Ready s)
    (hc : s.m_decoder_context = some c) (hu : u.consistent)
    (hlt : u.fullLength < DECODER_BUFFER_SIZE)
    (hk : available eng k (eng.avcodec_send_packet c u.bufferList.flatten).2) :
    ∃ s1 c1, submit_decode_unit eng 0 u s = some (DR_OK, s1) ∧
      s1.m_decoder_context = some c1 ∧
      receive_calls s1.calls = receive_calls s.calls + 1 ∧
      (written_frames s1.calls).length = (written_frames s.calls).length + min k 1 ∧
      (0 < k → available eng (k - 1) c1 ∧ frame s1 ≠ none) ∧
      (k = 0 → frame s1 = none) := by
  obtain ⟨_, ⟨p0, p1, hf⟩, hcount, hn, b, hb, hsz⟩ := hr
  obtain ⟨s1, b1, h1, _, _, _, _, _, _, _, _, hyes⟩ :=
    submit_accepted eng 0 u s c p0 p1 b hc hf hcount hn hb hsz hu hlt
  obtain ⟨hctx, hw, hcalls, hs, hf⟩ := hyes rfl
  refine ⟨s1, _, h1, hctx, hcalls, ?_, ?_, ?_⟩
  · cases k with
    | zero =>
      have h0 : (eng.avcodec_receive_frame
          (eng.avcodec_send_packet c u.bufferList.flatten).2).1 ≠ 0 := hk
      rw [hw, if_neg h0]; simp
    | succ j =>
      have h0 : (eng.avcodec_receive_frame
          (eng.avcodec_send_packet c u.bufferList.flatten).2).1 = 0 := hk.1
      rw [hw, if_pos h0]; simp
  · intro hpos
    cases k with
    | zero => omega
    | succ j =>
      refine ⟨hk.2, ?_⟩
      unfold frame
      rw [(hs hk.1).1]
      exact Option.some_ne_none _
  · intro hk0
    subst hk0
    exact (hf hk).1

/-- C10, witness: a packet after which the example engine has two pictures. -/
theorem single_retrieval_per_unit_witness :
    ∃ s1 c1, submit_decode_unit burst_engine 0 (single_fragment [2, 9]) ready_example
        = some (DR_OK, s1) ∧
      s1.m_decoder_context = some c1 ∧
      receive_calls s1.calls = receive_calls ready_example.calls + 1 ∧
      (written_frames s1.calls).length
        = (written_frames ready_example.calls).length + min 2 1 ∧
      (0 < 2 → available burst_engine (2 - 1) c1 ∧ frame s1 ≠ none) ∧
      (2 = 0 → frame s1 = none) :=
  single_retrieval_per_unit burst_engine (single_fragment [2, 9]) ready_example 0 2
    ready_example_ready rfl (by decide) (by decide)
    (by simp [available, burst_engine, single_fragment, AVERROR_EAGAIN])

/-- C10, counterexample: the unit makes two pictures available; when
`submit_decode_unit` returns, a single retrieval has been made and one picture is
still waiting in the engine. -/
theorem second_picture_left_pending :
    Ready ready_example ∧ ready_example.m_decoder_context = some 0 ∧
    available burst_engine 2
      (burst_engine.avcodec_send_packet 0 (single_fragment [2]).bufferList.flatten).2 ∧
    (submit_decode_unit burst_engine 0 (single_fragment [2]) ready_example).map
      (fun r => (r.1, r.2.m_decoder_context, receive_calls r.2.calls,
        written_frames r.2.calls)) = some (DR_OK, some 1, 1, [100]) ∧
    available burst_engine 1 1 := by
  refine ⟨ready_example_ready, rfl, ?_, rfl, ?_⟩ <;>
    simp [available, burst_engine, single_fragment, AVERROR_EAGAIN]

/-! ## Submission without a session (C7) -/

/-- C7, as amended: `submit_decode_unit` invoked on an adapter without an engine
session (before `setup`, after `cleanup`) never returns a status other than
`DR_OK`: a unit whose declared length is not below `DECODER_BUFFER_SIZE` is
answered `DR_OK` with the adapter untouched, and for a smaller unit the code
goes on to use the null session, for which no result is defined. -/
theorem submit_without_session {σ : Type} (eng : Engine σ) (mutex_lock : Int)
    (u : DECODE_UNIT) (s : FFmpegVideoDecoder σ) (hc : s.m_decoder_context = none) :
    submit_decode_unit eng mutex_lock u s
      = if u.fullLength < DECODER_BUFFER_SIZE then none else some (DR_OK, s) := by
  unfold submit_decode_unit
  by_cases hlt : u.fullLength < DECODER_BUFFER_SIZE
  · rw [if_pos hlt, if_pos hlt]
    cases hcopy : copy_entries u.bufferList s.m_ffmpeg_buffer 0 with
    | none => rfl
    | some r =>
      obtain ⟨buffer, length⟩ := r
      simp [decode, hc]
  · rw [if_neg hlt, if_neg hlt]

/-- C7, witness: the fresh adapter and a unit of capacity + 1 bytes. -/
theorem submit_without_session_witness :
    submit_decode_unit burst_engine 0 ⟨[], DECODER_BUFFER_SIZE + 1⟩ fresh
      = if (⟨[], DECODER_BUFFER_SIZE + 1⟩ : DECODE_UNIT).fullLength < DECODER_BUFFER_SIZE
        then none else some (DR_OK, fresh) :=
  submit_without_session burst_engine 0 ⟨[], DECODER_BUFFER_SIZE + 1⟩ fresh rfl

/-- C7, counterexample: before `setup` (no session, no frame array, no staging
buffer) a unit of capacity + 1 bytes is answered with the success status
`DR_OK`. -/
theorem submit_before_setup_status_ok :
    (fresh : FFmpegVideoDecoder Nat).m_decoder_context = none ∧
    (fresh : FFmpegVideoDecoder Nat).m_frames = none ∧
    (fresh : FFmpegVideoDecoder Nat).m_ffmpeg_buffer = none ∧
    (submit_decode_unit burst_engine 0
      (single_fragment (List.replicate (DECODER_BUFFER_SIZE + 1) 7)) fresh).map Prod.fst
      = some DR_OK := by
  refine ⟨rfl, rfl, rfl, ?_⟩
  rw [submit_rejected _ _ _ _ (by simp [single_fragment])]
  rfl

/-! ## Setup failures and teardown (C8, C9) -/

/-- C8, the code at the failing input: on a fresh adapter, when `avcodec_open2`
fails with -22, `setup` returns -22, releases nothing (the only call logged is
the message) and keeps the allocated session in `m_decoder_context`, whereas
`cleanup` on that adapter would release it.  The last failure path does roll
back: when the staging buffer cannot be allocated, `setup` returns -1 with the
session released and null. -/
theorem setup_open_failure_keeps_context :
    (setup failing_open_env VIDEO_FORMAT_H264 1280 720 fresh).1 = -22 ∧
    (setup failing_open_env VIDEO_FORMAT_H264 1280 720 fresh).2.m_decoder_context = some 0 ∧
    (setup failing_open_env VIDEO_FORMAT_H264 1280 720 fresh).2.calls
      = [Call.LOG "Couldn't open codec\n"] ∧
    (cleanup (setup failing_open_env VIDEO_FORMAT_H264 1280 720 fresh).2).m_decoder_context
      = none ∧
    (setup failing_buffer_env VIDEO_FORMAT_H264 1280 720 fresh).1 = -1 ∧
    (setup failing_buffer_env VIDEO_FORMAT_H264 1280 720 fresh).2.m_decoder_context = none ∧
    (setup failing_buffer_env VIDEO_FORMAT_H264 1280 720 fresh).2.m_frames = none ∧
    Call.av_free ∈ (setup failing_buffer_env VIDEO_FORMAT_H264 1280 720 fresh).2.calls := by
  refine ⟨?_, ?_, ?_, ?_, ?_, ?_, ?_, ?_⟩
  all_goals first | rfl | decide

/-- C9: for every adapter state, `cleanup` leaves the decoder context, the frame
array and the staging buffer null, and a second `cleanup` releases nothing and
returns the same state. -/
theorem cleanup_idempotent {σ : Type} (s : FFmpegVideoDecoder σ) :
    (cleanup s).m_decoder_context = none ∧ (cleanup s).m_frames = none ∧
    (cleanup s).m_ffmpeg_buffer = none ∧ cleanup (cleanup s) = cleanup s := by
  obtain ⟨dec, ctx, frames, count, cur, next, buf, fr, calls⟩ := s
  cases ctx <;> cases frames <;> cases buf <;> simp [cleanup]

/-! ## Sequences of submissions (C4, C5, C6) -/

theorem submit_step {σ : Type} (eng : Engine σ) (mutex_lock : Int) (u : DECODE_UNIT)
    (s : FFmpegVideoDecoder σ) (p0 p1 : Ptr) (hr : Ready s)
    (hf : s.m_frames = some [some p0, some p1]) (hu : u.consistent) :
    ∃ s1, submit_decode_unit eng mutex_lock u s = some (DR_OK, s1) ∧ Ready s1 ∧
      s1.m_frames = s.m_frames ∧
      ((written_frames s1.calls = written_frames s.calls ∧
          s1.m_current_frame = s.m_current_frame ∧ s1.m_next_frame = s.m_next_frame ∧
          (s1.m_frame = s.m_frame ∨ s1.m_frame = none)) ∨
       (written_frames s1.calls
            = written_frames s.calls ++ [if s.m_next_frame = 0 then p0 else p1] ∧
          s1.m_current_frame = s.m_next_frame ∧
          s1.m_next_frame = (s.m_next_frame + 1) % 2 ∧
          s1.m_frame = some (if s.m_next_frame = 0 then p0 else p1))) := by
  obtain ⟨s1, h1, hr1, hfr⟩ := submit_ready eng mutex_lock u s hr hu
  refine ⟨s1, h1, hr1, hfr, ?_⟩
  by_cases hlt : u.fullLength < DECODER_BUFFER_SIZE
  · obtain ⟨hc, _, hcount, hn, b, hb, hsz⟩ := hr
    obtain ⟨c, hc⟩ := Option.isSome_iff_exists.mp hc
    obtain ⟨s2, b1, h2, _, _, _, _, _, _, _, hno, hyes⟩ :=
      submit_accepted eng mutex_lock u s c p0 p1 b hc hf hcount hn hb hsz hu hlt
    rw [h1] at h2
    obtain rfl : s1 = s2 := by
      simpa using h2
    by_cases hl : mutex_lock = 0
    · obtain ⟨_, hw, _, hs, hf⟩ := hyes hl
      by_cases h0 : (eng.avcodec_receive_frame
          (eng.avcodec_send_packet c u.bufferList.flatten).2).1 = 0
      · right
        rw [if_pos h0] at hw
        exact ⟨hw, (hs h0).2.1, (hs h0).2.2, (hs h0).1⟩
      · left
        rw [if_neg h0, List.append_nil] at hw
        exact ⟨hw, (hf h0).2.1, (hf h0).2.2, Or.inr (hf h0).1⟩
    · left
      obtain ⟨_, g2, g3, g4, g5, _⟩ := hno hl
      exact ⟨g5, g2, g3, Or.inl g4⟩
  · rw [submit_rejected eng mutex_lock u s hlt] at h1
    obtain rfl : s = s1 := by
      simpa using h1
    exact Or.inl ⟨rfl, rfl, rfl, Or.inl rfl⟩

theorem submit_all_round_robin {σ : Type} (eng : Engine σ) (p0 p1 : Ptr)
    (ins : List (Int × DECODE_UNIT)) :
    ∀ s0 : FFmpegVideoDecoder σ, Ready s0 → s0.m_frames = some [some p0, some p1] →
      (∀ x ∈ ins, x.2.consistent) →
      ∃ s k, submit_all eng ins s0 = some s ∧ Ready s ∧ s.m_frames = s0.m_frames ∧
        written_frames s.calls = written_frames s0.calls ++
          (List.range k).map
            (fun j : Nat => if (s0.m_next_frame + (j : Int)) % 2 = 0 then p0 else p1) ∧
        s.m_next_frame = (s0.m_next_frame + (k : Int)) % 2 ∧
        (k = 0 → s.m_current_frame = s0.m_current_frame) ∧
        (0 < k → s.m_current_frame = (s0.m_next_frame + ((k - 1 : Nat) : Int)) % 2) := by
  induction ins with
  | nil =>
    intro s0 hr _ _
    refine ⟨s0, 0, rfl, hr, rfl, by simp, ?_, fun _ => rfl, fun h => absurd h (by omega)⟩
    obtain ⟨_, _, _, hn, _⟩ := hr
    omega
  | cons x rest ih =>
    intro s0 hr hf hins
    obtain ⟨mutex_lock, u⟩ := x
    obtain ⟨s1, h1, hr1, hf1, hstep⟩ :=
      submit_step eng mutex_lock u s0 p0 p1 hr hf (hins (mutex_lock, u) (by simp))
    obtain ⟨s, k, hs, hrs, hfs, hw, hnext, hcur0, hcur⟩ :=
      ih s1 hr1 (by rw [hf1, hf]) (fun y hy => hins y (List.mem_cons_of_mem _ hy))
    have hn0 := hr.2.2.2.1
    rcases hstep with ⟨e1, e2, e3, _⟩ | ⟨e1, e2, e3, _⟩
    · refine ⟨s, k, ?_, hrs, by rw [hfs, hf1], ?_, ?_, ?_, ?_⟩
      · simp only [submit_all, h1, hs]
      · rw [hw, e1, e3]
      · rw [hnext, e3]
      · intro hk; rw [hcur0 hk, e2]
      · intro hk; rw [hcur hk, e3]
    · refine ⟨s, k + 1, ?_, hrs, by rw [hfs, hf1], ?_, ?_, ?_, ?_⟩
      · simp only [submit_all, h1, hs]
      · rw [hw, e1, e3, List.range_succ_eq_map, List.map_cons, List.map_map,
          List.append_assoc]
        congr 1
        simp only [List.singleton_append, Nat.cast_zero, add_zero]
        have hmod : s0.m_next_frame % 2 = s0.m_next_frame := by omega
        rw [hmod]
        congr 1
        apply List.map_congr_left
        intro j _
        have hj : ((s0.m_next_frame + 1) % 2 + (j : Int)) % 2
            = (s0.m_next_frame + ((j + 1 : Nat) : Int)) % 2 := by
          push_cast; omega
        simp only [Function.comp, Nat.succ_eq_add_one]
        rw [hj]
      · rw [hnext, e3]; push_cast; omega
      · intro hk; omega
      · intro _
        by_cases hk : k = 0
        · subst hk
          rw [hcur0 rfl, e2]
          simp only [Nat.add_sub_cancel, Nat.cast_zero, add_zero]
          omega
        · rw [hcur (by omega), e3]
          have : ((k + 1 - 1 : Nat) : Int) = ((k - 1 : Nat) : Int) + 1 := by omega
          rw [this]
          omega

theorem slot_invariant_preserved {σ : Type} (eng : Engine σ) (p0 p1 : Ptr)
    (ins : List (Int × DECODE_UNIT)) :
    ∀ s0 : FFmpegVideoDecoder σ, Ready s0 → s0.m_frames = some [some p0, some p1] →
      (0 ≤ s0.m_current_frame ∧ s0.m_current_frame < 2) →
      (∀ p, frame s0 = some p →
        p = (if s0.m_current_frame = 0 then p0 else p1) ∧
        s0.m_next_frame = (s0.m_current_frame + 1) % 2) →
      (∀ x ∈ ins, x.2.consistent) →
      ∃ s, submit_all eng ins s0 = some s ∧ Ready s ∧ s.m_frames = s0.m_frames ∧
        (0 ≤ s.m_current_frame ∧ s.m_current_frame < 2) ∧
        (0 ≤ s.m_next_frame ∧ s.m_next_frame < 2) ∧
        (∀ p, frame s = some p →
          p = (if s.m_current_frame = 0 then p0 else p1) ∧
          s.m_next_frame = (s.m_current_frame + 1) % 2 ∧
          s.m_next_frame ≠ s.m_current_frame) := by
  induction ins with
  | nil =>
    intro s0 hr _ hcur hinv _
    refine ⟨s0, rfl, hr, rfl, hcur, hr.2.2.2.1, ?_⟩
    intro p hp
    obtain ⟨e1, e2⟩ := hinv p hp
    exact ⟨e1, e2, by omega⟩
  | cons x rest ih =>
    intro s0 hr hf hcur hinv hins
    obtain ⟨mutex_lock, u⟩ := x
    obtain ⟨s1, h1, hr1, hf1, hstep⟩ :=
      submit_step eng mutex_lock u s0 p0 p1 hr hf (hins (mutex_lock, u) (by simp))
    have hn0 := hr.2.2.2.1
    have hcur1 : 0 ≤ s1.m_current_frame ∧ s1.m_current_frame < 2 := by
      rcases hstep with ⟨_, e2, _, _⟩ | ⟨_, e2, _, _⟩
      · rw [e2]; exact hcur
      · rw [e2]; exact hn0
    have hinv1 : ∀ p, frame s1 = some p →
        p = (if s1.m_current_frame = 0 then p0 else p1) ∧
        s1.m_next_frame = (s1.m_current_frame + 1) % 2 := by
      intro p hp
      unfold frame at hp
      rcases hstep with ⟨_, e2, e3, e4⟩ | ⟨_, e2, e3, e4⟩
      · rcases e4 with e4 | e4
        · rw [e2, e3]
          exact hinv p (by unfold frame; rw [← e4]; exact hp)
        · rw [e4] at hp
          exact absurd hp (by simp)
      · rw [e4] at hp
        rw [e2, e3]
        exact ⟨(Option.some.inj hp).symm, rfl⟩
    obtain ⟨s, hs, hrs, hfs, g1, g2, g3⟩ :=
      ih s1 hr1 (by rw [hf1, hf]) hcur1 hinv1
        (fun y hy => hins y (List.mem_cons_of_mem _ hy))
    exact ⟨s, by simp only [submit_all, h1, hs], hrs, by rw [hfs, hf1], g1, g2, g3⟩

theorem frame_empty_preserved {σ : Type} (eng : Engine σ) (p0 p1 : Ptr)
    (ins : List (Int × DECODE_UNIT)) :
    ∀ s0 : FFmpegVideoDecoder σ, Ready s0 → s0.m_frames = some [some p0, some p1] →
      frame s0 = none → (∀ x ∈ ins, x.2.consistent) →
      ∃ s, submit_all eng ins s0 = some s ∧
        (written_frames s.calls = written_frames s0.calls → frame s = none) := by
  induction ins with
  | nil =>
    intro s0 _ _ hempty _
    exact ⟨s0, rfl, fun _ => hempty⟩
  | cons x rest ih =>
    intro s0 hr hf hempty hins
    obtain ⟨mutex_lock, u⟩ := x
    obtain ⟨s1, h1, hr1, hf1, hstep⟩ :=
      submit_step eng mutex_lock u s0 p0 p1 hr hf (hins (mutex_lock, u) (by simp))
    have hrest : ∀ y ∈ rest, y.2.consistent := fun y hy => hins y (List.mem_cons_of_mem _ hy)
    rcases hstep with ⟨e1, _, _, e4⟩ | ⟨e1, _, _, _⟩
    · have hempty1 : frame s1 = none := by
        unfold frame at hempty ⊢
        rcases e4 with e4 | e4
        · rw [e4]; exact hempty
        · exact e4
      obtain ⟨s, hs, hw⟩ := ih s1 hr1 (by rw [hf1, hf]) hempty1 hrest
      exact ⟨s, by simp only [submit_all, h1, hs], fun h => hw (by rw [h, e1])⟩
    · obtain ⟨s, k, hs, _, _, hw, _⟩ :=
        submit_all_round_robin eng p0 p1 rest s1 hr1 (by rw [hf1, hf]) hrest
      refine ⟨s, by simp only [submit_all, h1, hs], fun h => ?_⟩
      rw [hw, e1] at h
      have hlen := congrArg List.length h
      simp only [List.length_append, List.length_singleton, List.length_map,
        List.length_range] at hlen
      omega

/-- Within one session the slot invariant of C4 holds: after a successful `setup`
that was called with an empty `frame()` and both slot indices in `[0, 2)`, every
sequence of consistent decode units is processed, both indices stay in `[0, 2)`,
and whenever `frame()` is non-empty it is the slot at `m_current_frame` while
`m_next_frame = (m_current_frame + 1) mod 2` is the other slot. -/
theorem slot_invariant_from_empty_frame {σ : Type} (eng : Engine σ) (env : SetupEnv σ)
    (video_format width height : Int) (s : FFmpegVideoDecoder σ)
    (ins : List (Int × DECODE_UNIT))
    (hok : (setup env video_format width height s).1 = DR_OK)
    (hcur : 0 ≤ s.m_current_frame ∧ s.m_current_frame < 2)
    (hn : 0 ≤ s.m_next_frame ∧ s.m_next_frame < 2)
    (hempty : frame s = none)
    (hins : ∀ x ∈ ins, x.2.consistent) :
    ∃ p0 p1 s1,
      submit_all eng ins (setup env video_format width height s).2 = some s1 ∧
      s1.m_frames = some [some p0, some p1] ∧
      (0 ≤ s1.m_current_frame ∧ s1.m_current_frame < 2) ∧
      (0 ≤ s1.m_next_frame ∧ s1.m_next_frame < 2) ∧
      (∀ p, frame s1 = some p →
        p = (if s1.m_current_frame = 0 then p0 else p1) ∧
        s1.m_next_frame = (s1.m_current_frame + 1) % 2 ∧
        s1.m_next_frame ≠ s1.m_current_frame) := by
  have hr := ready_of_setup env video_format width height s hok hn
  obtain ⟨h1, _, h3, _, _, ⟨p0, p1, hf⟩, _, _⟩ :=
    setup_ok env video_format width height s hok
  obtain ⟨s1, hs, _, hfs, g1, g2, g3⟩ :=
    slot_invariant_preserved eng p0 p1 ins _ hr hf (by rw [h1]; exact hcur)
      (fun p hp => by
        unfold frame at hp hempty
        rw [h3, hempty] at hp
        exact absurd hp (by simp)) hins
  exact ⟨p0, p1, s1, hs, by rw [hfs, hf], g1, g2, g3⟩

/-- Within one session the property of C6 holds: after a successful `setup` that
was called with an empty `frame()` (a fresh adapter), `frame()` is empty right
after `setup` and stays empty after every sequence of consistent decode units
during which no retrieval has succeeded. -/
theorem frame_empty_until_first_retrieval {σ : Type} (eng : Engine σ) (env : SetupEnv σ)
    (video_format width height : Int) (s : FFmpegVideoDecoder σ)
    (ins : List (Int × DECODE_UNIT))
    (hok : (setup env video_format width height s).1 = DR_OK)
    (hn : 0 ≤ s.m_next_frame ∧ s.m_next_frame < 2)
    (hempty : frame s = none)
    (hins : ∀ x ∈ ins, x.2.consistent) :
    frame (setup env video_format width height s).2 = none ∧
    ∃ s1, submit_all eng ins (setup env video_format width height s).2 = some s1 ∧
      (written_frames s1.calls = written_frames s.calls → frame s1 = none) := by
  have hr := ready_of_setup env video_format width height s hok hn
  obtain ⟨_, _, h3, h4, _, ⟨p0, p1, hf⟩, _, _⟩ :=
    setup_ok env video_format width height s hok
  have hempty1 : frame (setup env video_format width height s).2 = none := by
    unfold frame at hempty ⊢
    rw [h3]; exact hempty
  obtain ⟨s1, hs, hw⟩ := frame_empty_preserved eng p0 p1 ins _ hr hf hempty1 hins
  exact ⟨hempty1, s1, hs, fun h => hw (by rw [h, h4])⟩

/-- C5, as amended: after a successful `setup` called with `m_next_frame = n`,
`0 ≤ n < 2`, every sequence of consistent decode units is processed, and when
`k` retrievals have succeeded since that setup they wrote, in order, into the
slots `(n + 0) mod 2, (n + 1) mod 2, ..., (n + k - 1) mod 2`; `m_next_frame` is
`(n + k) mod 2` and `m_current_frame` is the slot of the last successful
retrieval (unchanged while `k = 0`), so attempts that end in NotReady or an
error advance neither index.  `n` is 0 on a fresh adapter and is otherwise what
the previous session left: `setup` and `cleanup` do not reset the indices. -/
theorem round_robin_from_next_slot {σ : Type} (eng : Engine σ) (env : SetupEnv σ)
    (video_format width height : Int) (s : FFmpegVideoDecoder σ)
    (ins : List (Int × DECODE_UNIT))
    (hok : (setup env video_format width height s).1 = DR_OK)
    (hn : 0 ≤ s.m_next_frame ∧ s.m_next_frame < 2)
    (hins : ∀ x ∈ ins, x.2.consistent) :
    ∃ p0 p1 s1 k,
      (setup env video_format width height s).2.m_frames = some [some p0, some p1] ∧
      submit_all eng ins (setup env video_format width height s).2 = some s1 ∧
      s1.m_frames = some [some p0, some p1] ∧
      written_frames s1.calls = written_frames s.calls ++
        (List.range k).map
          (fun j : Nat => if (s.m_next_frame + (j : Int)) % 2 = 0 then p0 else p1) ∧
      s1.m_next_frame = (s.m_next_frame + (k : Int)) % 2 ∧
      (k = 0 → s1.m_current_frame = s.m_current_frame) ∧
      (0 < k → s1.m_current_frame = (s.m_next_frame + ((k - 1 : Nat) : Int)) % 2) := by
  have hr := ready_of_setup env video_format width height s hok hn
  obtain ⟨h1, h2, _, h4, _, ⟨p0, p1, hf⟩, _, _⟩ :=
    setup_ok env video_format width height s hok
  obtain ⟨s1, k, hs, _, hfs, hw, hnext, hcur0, hcur⟩ :=
    submit_all_round_robin eng p0 p1 ins _ hr hf hins
  rw [h2] at hw hnext hcur
  rw [h4] at hw
  rw [h1] at hcur0
  exact ⟨p0, p1, s1, k, hf, hs, by rw [hfs, hf], hw, hnext, hcur0, hcur⟩

/-- C5, witness: the fresh adapter, set up, then three units of which the second
yields no picture. -/
theorem round_robin_from_next_slot_witness :
    ∃ p0 p1 s1 k,
      (setup (plain_env 100) VIDEO_FORMAT_H264 1280 720 fresh).2.m_frames
        = some [some p0, some p1] ∧
      submit_all burst_engine
        [(0, single_fragment [1]), (0, single_fragment [0]), (0, single_fragment [1])]
        (setup (plain_env 100) VIDEO_FORMAT_H264 1280 720 fresh).2 = some s1 ∧
      s1.m_frames = some [some p0, some p1] ∧
      written_frames s1.calls = written_frames (fresh : FFmpegVideoDecoder Nat).calls ++
        (List.range k).map
          (fun j : Nat =>
            if ((fresh : FFmpegVideoDecoder Nat).m_next_frame + (j : Int)) % 2 = 0
            then p0 else p1) ∧
      s1.m_next_frame = ((fresh : FFmpegVideoDecoder Nat).m_next_frame + (k : Int)) % 2 ∧
      (k = 0 → s1.m_current_frame = (fresh : FFmpegVideoDecoder Nat).m_current_frame) ∧
      (0 < k → s1.m_current_frame
        = ((fresh : FFmpegVideoDecoder Nat).m_next_frame + ((k - 1 : Nat) : Int)) % 2) :=
  round_robin_from_next_slot burst_engine (plain_env 100) VIDEO_FORMAT_H264 1280 720 fresh
    [(0, single_fragment [1]), (0, single_fragment [0]), (0, single_fragment [1])]
    rfl ⟨by decide, by decide⟩ (by decide)

/-- C5, counterexample: after a first session with one retrieval and its
cleanup, a second `setup` succeeds with frames at 200 and 201; the first
successful retrieval after it (k = 0) writes into the frame at 201 and publishes
slot 1, not slot 0. -/
theorem second_session_starts_at_slot_one :
    ∃ s0, run burst_engine first_session fresh = some s0 ∧
      (setup (plain_env 200) VIDEO_FORMAT_H264 1280 720 s0).1 = DR_OK ∧
      (submit_all burst_engine [(0, single_fragment [1])]
        (setup (plain_env 200) VIDEO_FORMAT_H264 1280 720 s0).2).map
          (fun s => (s.m_frames,
            (written_frames s.calls).drop (written_frames s0.calls).length,
            s.m_current_frame))
        = some (some [some 200, some 201], [201], 1) :=
  ⟨_, rfl, rfl, rfl⟩

/-- C4, the code at the failing input: after a first session that published the
frame at 100 and its cleanup, a second `setup` succeeds with frames at 200 and
201.  In that state `frame()` is still the frame at 100, freed by `cleanup`,
while the slot at `m_current_frame = 0` is the frame at 200. -/
theorem stale_frame_is_no_current_slot :
    ∃ s0, run burst_engine first_session fresh = some s0 ∧
      (setup (plain_env 200) VIDEO_FORMAT_H264 1280 720 s0).1 = DR_OK ∧
      frame (setup (plain_env 200) VIDEO_FORMAT_H264 1280 720 s0).2 = some 100 ∧
      (setup (plain_env 200) VIDEO_FORMAT_H264 1280 720 s0).2.m_frames
        = some [some 200, some 201] ∧
      (setup (plain_env 200) VIDEO_FORMAT_H264 1280 720 s0).2.m_current_frame = 0 ∧
      Call.av_frame_free 100 ∈ (setup (plain_env 200) VIDEO_FORMAT_H264 1280 720 s0).2.calls :=
  ⟨_, rfl, rfl, rfl, rfl, rfl, by decide⟩

/-- C6, the code at the failing input: an adapter that ran a session and was
torn down with `cleanup` is set up again successfully; immediately afterwards
`frame()` is not empty (it is the first session's frame at 100), and it stays so
after a unit that is dropped, although no picture has been retrieved since that
setup. -/
theorem frame_not_empty_after_second_setup :
    ∃ s0, run burst_engine first_session fresh = some s0 ∧
      (setup (plain_env 200) VIDEO_FORMAT_H264 1280 720 s0).1 = DR_OK ∧
      frame (setup (plain_env 200) VIDEO_FORMAT_H264 1280 720 s0).2 ≠ none ∧
      written_frames s0.calls = [100] ∧
      (submit_all burst_engine [(0, ⟨[], DECODER_BUFFER_SIZE⟩)]
        (setup (plain_env 200) VIDEO_FORMAT_H264 1280 720 s0).2).map
          (fun s => (frame s, written_frames s.calls))
        = some (some 100, [100]) :=
  ⟨_, rfl, rfl, by decide, rfl, rfl⟩

theorem cleanup_fields {σ : Type} (s : FFmpegVideoDecoder σ) :
    (cleanup s).m_current_frame = s.m_current_frame ∧
    (cleanup s).m_next_frame = s.m_next_frame ∧
    (cleanup s).m_frames_count = s.m_frames_count ∧
    (cleanup s).m_frame = s.m_frame := by
  obtain ⟨dec, ctx, frames, count, cur, next, buf, fr, calls⟩ := s
  cases ctx <;> cases frames <;> cases buf <;> simp [cleanup]

theorem setup_fields {σ : Type} (env : SetupEnv σ) (video_format width height : Int)
    (s : FFmpegVideoDecoder σ) :
    (setup env video_format width height s).2.m_current_frame = s.m_current_frame ∧
    (setup env video_format width height s).2.m_next_frame = s.m_next_frame ∧
    ((setup env video_format width height s).2.m_frames_count = s.m_frames_count ∨
      (setup env video_format width height s).2.m_frames_count = 2) ∧
    (setup env video_format width height s).2.m_frame = s.m_frame := by
  simp only [setup]
  split
  · simp only [FFmpegVideoDecoder.logged]; split_ifs <;> simp
  · split
    · simp only [FFmpegVideoDecoder.logged]; split_ifs <;> simp
    · split
      · simp only [FFmpegVideoDecoder.logged]; split_ifs <;> simp
      · split
        · simp only [FFmpegVideoDecoder.logged]; split_ifs <;> simp
        · split
          · simp only [FFmpegVideoDecoder.logged]; split_ifs <;> simp
          · split
            · simp only [FFmpegVideoDecoder.logged]
              refine ⟨?_, ?_, ?_, ?_⟩
              · rw [(cleanup_fields _).1]; simp only; split_ifs <;> rfl
              · rw [(cleanup_fields _).2.1]; simp only; split_ifs <;> rfl
              · rw [(cleanup_fields _).2.2.1]; exact Or.inr rfl
              · rw [(cleanup_fields _).2.2.2]; simp only; split_ifs <;> rfl
            · simp only; split_ifs <;> simp

theorem decode_fields {σ : Type} (eng : Engine σ) (indata : Option Block) (n : Nat)
    (s : FFmpegVideoDecoder σ) (r : Int × FFmpegVideoDecoder σ)
    (h : decode eng indata n s = some r) :
    r.2.m_current_frame = s.m_current_frame ∧ r.2.m_next_frame = s.m_next_frame ∧
    r.2.m_frames_count = s.m_frames_count ∧ r.2.m_frame = s.m_frame := by
  unfold decode at h
  split at h
  · simp at h
  · simp only at h
    split_ifs at h <;>
    · simp only [Option.some.injEq] at h
      subst h
      simp [FFmpegVideoDecoder.logged]

theorem get_frame_indices {σ : Type} (eng : Engine σ) (s : FFmpegVideoDecoder σ)
    (r : Option Ptr × FFmpegVideoDecoder σ) (h : get_frame eng true s = some r) :
    r.2.m_frames_count = s.m_frames_count ∧
    ((r.1 = none ∧ r.2.m_current_frame = s.m_current_frame ∧
        r.2.m_next_frame = s.m_next_frame) ∨
     (0 ≤ s.m_next_frame ∧ s.m_frames_count ≠ 0 ∧ r.2.m_current_frame = s.m_next_frame ∧
        r.2.m_next_frame = Int.tmod (s.m_next_frame + 1) s.m_frames_count)) := by
  unfold get_frame at h
  split at h
  · split at h
    · rename_i hnn
      split at h
      · simp only [FFmpegVideoDecoder.logged] at h
        split_ifs at h with h1 h2 h3
        · split at h
          · simp only [Option.some.injEq] at h
            subst h
            exact ⟨rfl, Or.inr ⟨hnn, h2, rfl, rfl⟩⟩
          · simp at h
        · simp only [Option.some.injEq] at h
          subst h
          exact ⟨rfl, Or.inl ⟨rfl, rfl, rfl⟩⟩
        · simp only [Option.some.injEq] at h
          subst h
          exact ⟨rfl, Or.inl ⟨rfl, rfl, rfl⟩⟩
      · simp at h
    · simp at h
  · simp at h

theorem submit_slot_indices {σ : Type} (eng : Engine σ) (mutex_lock : Int)
    (u : DECODE_UNIT) (s : FFmpegVideoDecoder σ) (r : Int × FFmpegVideoDecoder σ)
    (hinv : SlotIndices s) (h : submit_decode_unit eng mutex_lock u s = some r) :
    SlotIndices r.2 := by
  obtain ⟨hcur, hnext, hcount, hfr⟩ := hinv
  unfold submit_decode_unit at h
  by_cases hlt : u.fullLength < DECODER_BUFFER_SIZE
  · rw [if_pos hlt] at h
    split at h
    · simp at h
    · split at h
      · simp at h
      · rename_i hd
        obtain ⟨d1, d2, d3, d4⟩ := decode_fields _ _ _ _ _ hd
        simp only at d1 d2 d3 d4
        by_cases hl : mutex_lock = 0
        · rw [if_pos hl] at h
          split at h
          · simp at h
          · rename_i hg
            obtain ⟨g1, g2⟩ := get_frame_indices _ _ _ hg
            simp only [Option.some.injEq] at h
            subst h
            simp only at g1 g2 ⊢
            rw [d3] at g1 g2
            rw [d2] at g2
            rcases g2 with ⟨e1, e2, e3⟩ | ⟨_, e2, e3, e4⟩
            · refine ⟨by rw [e2, d1]; exact hcur, by rw [e3]; exact hnext,
                by rw [g1]; exact hcount, ?_⟩
              intro hne
              exact absurd e1 hne
            · have hc2 : s.m_frames_count = 2 := by
                rcases hcount with hc | hc
                · exact absurd hc e2
                · exact hc
              rw [hc2] at e4
              have hn01 : s.m_next_frame = 0 ∨ s.m_next_frame = 1 := by omega
              refine ⟨by rw [e3]; exact hnext, ?_, by rw [g1]; exact hcount, ?_⟩
              · rcases hn01 with h0 | h0 <;> rw [e4, h0] <;> decide
              · intro _
                rcases hn01 with h0 | h0 <;> rw [e4, e3, h0] <;> decide
        · rw [if_neg hl] at h
          simp only [Option.some.injEq] at h
          subst h
          simp only
          exact ⟨by rw [d1]; exact hcur, by rw [d2]; exact hnext, by rw [d3]; exact hcount,
            by rw [d4, d2, d1]; exact hfr⟩
  · rw [if_neg hlt] at h
    simp only [Option.some.injEq] at h
    subst h
    exact ⟨hcur, hnext, hcount, hfr⟩

theorem run_slot_indices {σ : Type} (eng : Engine σ) (ops : List (Op σ)) :
    ∀ s s1 : FFmpegVideoDecoder σ, SlotIndices s → run eng ops s = some s1 →
      SlotIndices s1 := by
  induction ops with
  | nil =>
    intro s s1 hinv h
    simp only [run, Option.some.injEq] at h
    subst h
    exact hinv
  | cons op rest ih =>
    intro s s1 hinv h
    simp only [run] at h
    split at h
    · simp at h
    · rename_i s2 hop
      refine ih s2 s1 ?_ h
      obtain ⟨hcur, hnext, hcount, hfr⟩ := hinv
      cases op with
      | setup env video_format width height =>
        simp only [Op.apply, Option.some.injEq] at hop
        subst hop
        obtain ⟨f1, f2, f3, f4⟩ := setup_fields env video_format width height s
        refine ⟨by rw [f1]; exact hcur, by rw [f2]; exact hnext, ?_,
          by rw [f4, f2, f1]; exact hfr⟩
        rcases f3 with f3 | f3
        · rw [f3]; exact hcount
        · exact Or.inr f3
      | cleanup =>
        simp only [Op.apply, Option.some.injEq] at hop
        subst hop
        obtain ⟨f1, f2, f3, f4⟩ := cleanup_fields s
        exact ⟨by rw [f1]; exact hcur, by rw [f2]; exact hnext, by rw [f3]; exact hcount,
          by rw [f4, f2, f1]; exact hfr⟩
      | submit_decode_unit mutex_lock u =>
        simp only [Op.apply, Option.map_eq_some'] at hop
        obtain ⟨r, hr, rfl⟩ := hop
        exact submit_slot_indices eng mutex_lock u s r ⟨hcur, hnext, hcount, hfr⟩ hr

/-- The index half of C4 in every life cycle: whatever sequence of `setup`,
`cleanup` and `submit_decode_unit` calls a fresh adapter goes through, both slot
indices stay in `[0, 2)`, and whenever `frame()` is non-empty `m_next_frame` is
`(m_current_frame + 1) mod 2`, a slot other than `m_current_frame`. -/
theorem slot_indices_of_run {σ : Type} (eng : Engine σ) (ops : List (Op σ))
    (s : FFmpegVideoDecoder σ) (h : run eng ops fresh = some s) :
    (0 ≤ s.m_current_frame ∧ s.m_current_frame < 2) ∧
    (0 ≤ s.m_next_frame ∧ s.m_next_frame < 2) ∧
    (frame s ≠ none →
      s.m_next_frame = (s.m_current_frame + 1) % 2 ∧ s.m_next_frame ≠ s.m_current_frame) := by
  have hfresh : SlotIndices (fresh : FFmpegVideoDecoder σ) :=
    ⟨⟨le_refl _, by simp [fresh]⟩, ⟨le_refl _, by simp [fresh]⟩, Or.inl rfl,
      fun h => absurd rfl h⟩
  obtain ⟨h1, h2, _, h4⟩ := run_slot_indices eng ops fresh s hfresh h
  refine ⟨h1, h2, fun hne => ?_⟩
  have := h4 hne
  exact ⟨this, by omega⟩

end Moonlight
